import Mathlib

/-!
Verification of the forecast orchestration core of the stock-prediction
backend (`app.py`), over a shallow embedding in Lean 4.

Modelling conventions:
* A pandas `DataFrame` with `Date` and `Close` columns is a `Series`:
  a list of rows carrying an integer date (days since an epoch) and an
  optional rational close price (`none` = missing / NaN).
* Machine floats become exact rationals `ℚ`; floating-point rounding is
  out of scope, the algebraic structure of the computations is kept.
* The opaque trained network is a parameter `predict : List ℚ → ℚ`
  mapping a window of scaled values to the next scaled value.
* Filesystem state is passed in as data: a directory listing is a
  `List String` of file names, persistence outcomes and artifact load
  outcomes are `Except`-valued parameters.
-/

deriving instance DecidableEq for Except

/-- One row of the price DataFrame: a date (days since an epoch) and an
optional close price (`none` models a missing / NaN close). -/
structure Row where
  date : Int
  close : Option ℚ
deriving DecidableEq, Repr

/-- The price DataFrame handed to the forecasters. -/
abbrev Series := List Row

/-- `data.dropna(subset=["Close"])["Close"]`: the usable close values. -/
def usableCloses (data : Series) : List ℚ :=
  data.filterMap (fun r => r.close)

/-- `data.dropna(subset=["Close"])`: the rows with a usable close. -/
def usableRows (data : Series) : Series :=
  data.filter (fun r => r.close.isSome)

/-- `np.min` over a nonempty list (0 on the empty list, never used there). -/
def dataMin : List ℚ → ℚ
  | [] => 0
  | a :: t => t.foldl min a

/-- `np.max` over a nonempty list (0 on the empty list, never used there). -/
def dataMax : List ℚ → ℚ
  | [] => 0
  | a :: t => t.foldl max a

/-- Errors raised by the forecasting core (each constructor corresponds to
one `raise` site in `app.py`). -/
inductive ForecastError where
  /-- `forecast_linear`: "No data available for forecasting". -/
  | emptySeries
  /-- `np.polyfit` called with empty vectors (all closes missing). -/
  | polyfitEmpty
  /-- autotrain: "Not enough data points to train an LSTM model ...". -/
  | insufficientData
  /-- autotrain: "Unable to create training sequences for LSTM model.". -/
  | noTrainingSequences
  /-- inference: "Not enough data points for the selected LSTM window size.". -/
  | notEnoughForWindow
  /-- inference: "Model file not found". -/
  | modelFileMissing
  /-- inference: "Scaler file not found". -/
  | scalerFileMissing
  /-- an exception escaping `model.save` / `joblib.dump` during persistence. -/
  | persistFailed (msg : String)
deriving DecidableEq, Repr

/-- `sklearn.preprocessing.MinMaxScaler` fitted state (feature range (0,1)). -/
structure MinMaxScaler where
  data_min : ℚ
  data_max : ℚ
  scale_ : ℚ
  min_ : ℚ
deriving DecidableEq, Repr

/-- `MinMaxScaler(feature_range=(0.0, 1.0)).fit(xs)`: sklearn computes
`scale_ = (1 - 0) / handle_zeros(data_max - data_min)` where a zero data
range is replaced by 1, and `min_ = 0 - data_min * scale_`. -/
def MinMaxScaler.fit (xs : List ℚ) : MinMaxScaler :=
  let dmin := dataMin xs
  let dmax := dataMax xs
  let dataRange := dmax - dmin
  let handled := if dataRange = 0 then 1 else dataRange
  { data_min := dmin
    data_max := dmax
    scale_ := (1 - 0) / handled
    min_ := 0 - dmin * ((1 - 0) / handled) }

/-- `scaler.transform`: `x * scale_ + min_`. -/
def MinMaxScaler.transform (sc : MinMaxScaler) (x : ℚ) : ℚ :=
  x * sc.scale_ + sc.min_

/-- `scaler.inverse_transform`: `(y - min_) / scale_`. -/
def MinMaxScaler.inverse_transform (sc : MinMaxScaler) (y : ℚ) : ℚ :=
  (y - sc.min_) / sc.scale_

/-- `np.clip(x, lo, hi) = np.minimum(hi, np.maximum(lo, x))`. -/
def pyClip (x lo hi : ℚ) : ℚ := min hi (max lo x)

/-- Python's `hist[-window:]` (for `window = 0`, `hist[-0:]` is the whole
list). -/
def pySliceLast (hist : List ℚ) (window : Nat) : List ℚ :=
  if window = 0 then hist else hist.drop (hist.length - window)

/-- The shared autoregressive prediction loop of `forecast_lstm_autotrain`
and `forecast_lstm_inference`: `days` times, predict the next scaled value
from the last `window` entries of the rolling history, optionally clamp it
to `[0,1]` (`clampPreds = true` in the autotrain loop, `false` in the
inference loop), and append it to the history.  Returns the list of
predicted scaled values in order. -/
def predLoop (predict : List ℚ → ℚ) (window : Nat) (clampPreds : Bool) :
    Nat → List ℚ → List ℚ
  | 0, _ => []
  | days + 1, hist =>
    let raw := predict (pySliceLast hist window)
    let next_scaled := if clampPreds then pyClip raw 0 1 else raw
    next_scaled :: predLoop predict window clampPreds days (hist ++ [next_scaled])

/-- The training-pair builder of `forecast_lstm_autotrain`:
`for idx in range(window, len(scaled)):` pair
`(scaled[idx-window : idx], scaled[idx])`. -/
def trainingSequences (scaled : List ℚ) (window : Nat) : List (List ℚ × ℚ) :=
  (List.range' window (scaled.length - window)).map
    (fun idx => ((scaled.drop (idx - window)).take window, scaled.getD idx 0))

/-- Python truthiness of an optional string (`None` and `""` are falsy). -/
def pyTruthyStr : Option String → Bool
  | none => false
  | some s => !(s = "")

/-- `data["Date"].iloc[-1]` on a nonempty frame (0 on an empty one). -/
def lastDate (data : Series) : Int :=
  (data.getLastD ⟨0, none⟩).date

/-- `pd.date_range(last_date + 1 day, periods=days, freq="D")` zipped with
the forecast values into `(Date, Forecast)` rows. -/
def attachFutureDates (last : Int) (days : Nat) (preds : List ℚ) :
    List (Int × ℚ) :=
  List.zip ((List.range days).map (fun (k : Nat) => last + 1 + (k : Int))) preds

/-- `forecast_lstm_autotrain` (`app.py` lines 346-420).  The trained
network is the opaque parameter `predict`; `persistResult` is the outcome
the persistence step (`model.save` + `joblib.dump`) would have if it runs
(the source does not guard it with a `try`, so an exception there escapes
the function). -/
def forecast_lstm_autotrain (data : Series) (days window : Nat)
    (predict : List ℚ → ℚ) (persist : Bool) (ticker : Option String)
    (persistResult : Except String Unit) :
    Except ForecastError (List (Int × ℚ)) :=
  let closes := usableCloses data
  if closes.length ≤ window then .error .insufficientData
  else
    let scaler := MinMaxScaler.fit closes
    let closes_scaled := closes.map scaler.transform
    if trainingSequences closes_scaled window = [] then
      .error .noTrainingSequences
    else
      let preds_scaled := predLoop predict window true days closes_scaled
      let preds := preds_scaled.map scaler.inverse_transform
      let result := Except.ok (attachFutureDates (lastDate data) days preds)
      if persist && pyTruthyStr ticker then
        match persistResult with
        | .error e => .error (.persistFailed e)
        | .ok _ => result
      else result

/-- `forecast_lstm_inference` (`app.py` lines 307-343).  The persisted
model and scaler are parameters (`predict`, `scaler`), together with flags
recording whether the two artifact files exist on disk. -/
def forecast_lstm_inference (data : Series)
    (modelFileExists scalerFileExists : Bool) (scaler : MinMaxScaler)
    (predict : List ℚ → ℚ) (days window : Nat) :
    Except ForecastError (List (Int × ℚ)) :=
  if !modelFileExists then .error .modelFileMissing
  else if !scalerFileExists then .error .scalerFileMissing
  else
    let closes := usableCloses data
    if closes.length < window then .error .notEnoughForWindow
    else
      let closes_scaled := closes.map scaler.transform
      let preds_scaled := predLoop predict window false days closes_scaled
      let preds := preds_scaled.map scaler.inverse_transform
      .ok (attachFutureDates (lastDate data) days preds)

/-- `np.polyfit(np.arange(n), ys, 1)` for `n ≥ 2`: the degree-1 least
squares fit over index positions `0..n-1`, as `(slope, intercept)`. -/
def polyfit1 (ys : List ℚ) : ℚ × ℚ :=
  let n : ℚ := ys.length
  let xs := (List.range ys.length).map (fun i => (i : ℚ))
  let sx := xs.sum
  let sy := ys.sum
  let sxx := (xs.map (fun x => x * x)).sum
  let sxy := ((List.zip xs ys).map (fun p => p.1 * p.2)).sum
  let d := n * sxx - sx * sx
  ((n * sxy - sx * sy) / d, (sxx * sy - sx * sxy) / d)

/-- `forecast_linear` (`app.py` lines 284-304).  Mirrors the source: empty
frame check, drop missing closes, single-point degenerate fit, otherwise
least squares (`np.polyfit` raises on an empty vector), then extrapolate
`slope * future_index + intercept` over dates following the last usable
row's date. -/
def forecast_linear (data : Series) (days : Nat) :
    Except ForecastError (List (Int × ℚ)) :=
  if data = [] then .error .emptySeries
  else
    let closes := usableRows data
    let closes_values := usableCloses data
    if closes_values.length = 1 then
      let intercept := closes_values.getD 0 0
      .ok ((List.range days).map
        (fun (k : Nat) => (lastDate closes + 1 + (k : Int),
                   0 * ((closes_values.length : ℚ) + (k : ℚ)) + intercept)))
    else if closes_values.length = 0 then .error .polyfitEmpty
    else
      let fit := polyfit1 closes_values
      .ok ((List.range days).map
        (fun (k : Nat) => (lastDate closes + 1 + (k : Int),
                   fit.1 * ((closes_values.length : ℚ) + (k : ℚ)) + fit.2)))

/-- `pathlib.PurePath(name).stem`: the name without its final suffix,
where the suffix is `name[i:]` for the last dot index `i` only when
`0 < i < len(name) - 1`. -/
def pyStem (name : String) : String :=
  let cs := name.toList
  let dotIdxs := (List.range cs.length).filter (fun i => cs.getD i ' ' = '.')
  match dotIdxs.getLast? with
  | some i => if 0 < i ∧ i + 1 < cs.length then String.mk (cs.take i) else name
  | none => name

/-- Python `s.upper()` (restricted to the ASCII case mapping). -/
def pyUpper (s : String) : String := String.mk (s.toList.map Char.toUpper)

/-- Python `s.lower()` (restricted to the ASCII case mapping). -/
def pyLower (s : String) : String := String.mk (s.toList.map Char.toLower)

/-- Character-list prefix test (Python `startswith`). -/
def listIsPrefix : List Char → List Char → Bool
  | [], _ => true
  | _ :: _, [] => false
  | p :: ps, c :: cs => p = c && listIsPrefix ps cs

/-- Python `s.startswith(pre)`. -/
def pyStartsWith (s pre : String) : Bool := listIsPrefix pre.toList s.toList

/-- Python `s.endswith(suf)`; also the semantics of globbing `*suf`
(`fnmatch` lets `*` match the empty string, dots included). -/
def pyEndsWith (s suf : String) : Bool :=
  listIsPrefix suf.toList.reverse s.toList.reverse

/-- Python `s[n:]` for a nonnegative `n`. -/
def pyDrop (s : String) (n : Nat) : String := String.mk (s.toList.drop n)

/-- Python `s.strip(chars)`: remove characters of the set from both ends. -/
def pyStripChars (s : String) (chars : List Char) : String :=
  let l := s.toList.dropWhile (fun c => c ∈ chars)
  String.mk (l.reverse.dropWhile (fun c => c ∈ chars)).reverse

/-- `_normalise_ticker_from_stem` (`app.py` lines 509-515): uppercase the
stem, strip each of the markers `LSTM_`, `MODEL_`, `STOCK_` in turn when
present, drop every character outside `A-Z0-9`, and return `None` for an
empty result. -/
def normalise_ticker_from_stem (stem : String) : Option String :=
  let cleaned := pyUpper stem
  let cleaned := if pyStartsWith cleaned "LSTM_" then pyDrop cleaned 5 else cleaned
  let cleaned := if pyStartsWith cleaned "MODEL_" then pyDrop cleaned 6 else cleaned
  let cleaned := if pyStartsWith cleaned "STOCK_" then pyDrop cleaned 6 else cleaned
  let cleaned := String.mk (cleaned.toList.filter
    (fun c => ('A' ≤ c ∧ c ≤ 'Z') ∨ ('0' ≤ c ∧ c ≤ '9')))
  if cleaned = "" then none else some cleaned

/-- The first, uppercase-derived candidate scaler names of
`_find_scaler_path`, in source order. -/
def scalerCandidates (ticker : String) : List String :=
  [ticker ++ "_SCALER.pkl", ticker ++ "_SCALER.save",
   ticker ++ "_scaler.pkl", ticker ++ "_scaler.save",
   "SCALER_" ++ ticker ++ ".pkl", "SCALER_" ++ ticker ++ ".save",
   "scaler_" ++ ticker ++ ".pkl", "scaler_" ++ ticker ++ ".save",
   "lstm_" ++ ticker ++ "_scaler.pkl", "lstm_" ++ ticker ++ "_scaler.save",
   "LSTM_" ++ ticker ++ "_SCALER.pkl", "LSTM_" ++ ticker ++ "_SCALER.save"]

/-- The lowercase-derived candidate scaler names of `_find_scaler_path`,
tried after `scalerCandidates`, in source order. -/
def scalerCandidatesLower (ticker : String) : List String :=
  let tl := pyLower ticker
  [tl ++ "_scaler.pkl", tl ++ "_scaler.save",
   "scaler_" ++ tl ++ ".pkl", "scaler_" ++ tl ++ ".save",
   "lstm_" ++ tl ++ "_scaler.pkl", "lstm_" ++ tl ++ "_scaler.save"]

/-- `_find_scaler_path` (`app.py` lines 518-548): the first candidate
name that exists in the storage root's listing. -/
def find_scaler_path (listing : List String) (ticker : String) : Option String :=
  (scalerCandidates ticker ++ scalerCandidatesLower ticker).find?
    (fun c => listing.contains c)

/-- `model_root.glob("*.keras")` followed by `model_root.glob("*.h5")`. -/
def modelFiles (listing : List String) : List String :=
  listing.filter (fun n => pyEndsWith n ".keras")
    ++ listing.filter (fun n => pyEndsWith n ".h5")

/-- Python `dict` assignment `d[k] = v` on an insertion-ordered
association list: replace in place when the key is present, else append. -/
def dictInsert (l : List (String × String × String)) (k : String)
    (v : String × String) : List (String × String × String) :=
  if l.any (fun e => e.1 == k) then
    l.map (fun e => if e.1 == k then (k, v) else e)
  else l ++ [(k, v)]

/-- The body of the `for model_path in model_files` loop of
`list_available_models`: recover a ticker from the model file's stem,
look up a scaler, and record `(ticker, model, scaler)` only when a scaler
was found. -/
def catalogStep (listing : List String)
    (acc : List (String × String × String)) (mp : String) :
    List (String × String × String) :=
  match normalise_ticker_from_stem (pyStem mp) with
  | none => acc
  | some t =>
    match find_scaler_path listing t with
    | none => acc
    | some sp => dictInsert acc t (mp, sp)

/-- `list_available_models` (`app.py` lines 551-565) as a pure function of
the storage root's directory listing. -/
def list_available_models (listing : List String) :
    List (String × String × String) :=
  (modelFiles listing).foldl (catalogStep listing) []

/-- `ticker_clean in model_catalog`. -/
def catalogHasTicker (listing : List String) (ticker : String) : Bool :=
  (list_available_models listing).any (fun e => e.1 == ticker)

/-- The three forecast tiers of the orchestration state machine. -/
inductive Tier where
  | train
  | cached
  | linear
deriving DecidableEq, Repr

/-- The `ForecastOutcome` fields the orchestrator computes (forecast
values, provenance tag, optional note). -/
structure Outcome where
  source : String
  note : Option String
  forecast : List (Int × ℚ)
deriving DecidableEq, Repr

/-- The intermediate state after the training block of `get_forecast`:
attempted tiers, `forecast_df`, `note`, `train_error`, and the listing
backing the current `model_catalog`. -/
structure OrchMid where
  trace : List Tier
  forecast_df : Option (List (Int × ℚ))
  note : Option String
  train_error : Option String
  catalogListing : List String

/-- The tier-selection logic of `get_forecast` (`app.py` lines 754-810),
as a pure function.  `listing0`/`listing1` are the storage root's contents
at the initial catalog scan and at the refresh triggered by a training
failure; `train` is the outcome of the `forecast_lstm_autotrain` call and
`infer n` the outcome of the `n`-th `forecast_lstm_inference` call (the
messages of raised exceptions are their `.error` payloads).  Returns the
attempted tiers in order together with the resulting outcome (or the
error escaping the endpoint). -/
def get_forecast_tiers (use_lstm : Bool) (ticker : String)
    (listing0 listing1 : List String)
    (train : Except String (List (Int × ℚ)))
    (infer : Nat → Except String (List (Int × ℚ)))
    (data : Series) (days : Nat) :
    List Tier × Except ForecastError Outcome :=
  let mid : OrchMid :=
    if use_lstm then
      match train with
      | .ok df => ⟨[.train], some df, none, none, listing0⟩
      | .error e =>
        if catalogHasTicker listing1 ticker then
          match infer 0 with
          | .ok df =>
            ⟨[.train, .cached], some df,
             some ("Used cached LSTM due to training fallback: " ++ e),
             some e, listing1⟩
          | .error e2 =>
            ⟨[.train, .cached], none, none,
             some (e ++ "; cached model failed: " ++ e2), listing1⟩
        else
          ⟨[.train], none, some ("LSTM training unavailable: " ++ e),
           some e, listing1⟩
    else ⟨[], none, none, none, listing0⟩
  match mid.forecast_df with
  | some df => (mid.trace, .ok ⟨"lstm", mid.note, df⟩)
  | none =>
    let retried : List Tier × Option (List (Int × ℚ)) × Option String :=
      if use_lstm && catalogHasTicker mid.catalogListing ticker then
        match infer 1 with
        | .ok df => (mid.trace ++ [.cached], some df, mid.train_error)
        | .error e2 =>
          (mid.trace ++ [.cached], none,
           some (pyStripChars ((mid.train_error.getD "")
             ++ "; cached model failed: " ++ e2) [';', ' ']))
      else (mid.trace, none, mid.train_error)
    match retried.2.1 with
    | some df => (retried.1, .ok ⟨"lstm", mid.note, df⟩)
    | none =>
      match forecast_linear data days with
      | .error err => (retried.1 ++ [.linear], .error err)
      | .ok f =>
        let finalNote :=
          match retried.2.2 with
          | some te => if te = "" then mid.note
                       else some ("Fell back to linear forecast because LSTM failed: " ++ te)
          | none => mid.note
        (retried.1 ++ [.linear], .ok ⟨"linear", finalNote, f⟩)

lemma foldl_min_le_init (l : List ℚ) (a : ℚ) : l.foldl min a ≤ a := by
  induction l generalizing a with
  | nil => simp
  | cons b t ih =>
    calc (b :: t).foldl min a = t.foldl min (min a b) := rfl
    _ ≤ min a b := ih _
    _ ≤ a := min_le_left _ _

lemma foldl_min_le_mem (l : List ℚ) (a x : ℚ) (hx : x ∈ l) :
    l.foldl min a ≤ x := by
  induction l generalizing a with
  | nil => cases hx
  | cons b t ih =>
    rcases List.mem_cons.mp hx with h | h
    · subst h
      calc (x :: t).foldl min a = t.foldl min (min a x) := rfl
      _ ≤ min a x := foldl_min_le_init _ _
      _ ≤ x := min_le_right _ _
    · exact ih _ h

lemma init_le_foldl_max (l : List ℚ) (a : ℚ) : a ≤ l.foldl max a := by
  induction l generalizing a with
  | nil => simp
  | cons b t ih =>
    calc a ≤ max a b := le_max_left _ _
    _ ≤ t.foldl max (max a b) := ih _
    _ = (b :: t).foldl max a := rfl

lemma mem_le_foldl_max (l : List ℚ) (a x : ℚ) (hx : x ∈ l) :
    x ≤ l.foldl max a := by
  induction l generalizing a with
  | nil => cases hx
  | cons b t ih =>
    rcases List.mem_cons.mp hx with h | h
    · subst h
      calc x ≤ max a x := le_max_right _ _
      _ ≤ t.foldl max (max a x) := init_le_foldl_max _ _
      _ = (x :: t).foldl max a := rfl
    · exact ih _ h

lemma dataMin_le_mem (xs : List ℚ) (x : ℚ) (hx : x ∈ xs) : dataMin xs ≤ x := by
  cases xs with
  | nil => cases hx
  | cons a t =>
    rcases List.mem_cons.mp hx with h | h
    · subst h; exact foldl_min_le_init _ _
    · exact foldl_min_le_mem _ _ _ h

lemma mem_le_dataMax (xs : List ℚ) (x : ℚ) (hx : x ∈ xs) : x ≤ dataMax xs := by
  cases xs with
  | nil => cases hx
  | cons a t =>
    rcases List.mem_cons.mp hx with h | h
    · subst h; exact init_le_foldl_max _ _
    · exact mem_le_foldl_max _ _ _ h

lemma dataMin_lt_dataMax (xs : List ℚ) (a b : ℚ) (ha : a ∈ xs) (hb : b ∈ xs)
    (hab : a ≠ b) : dataMin xs < dataMax xs := by
  rcases lt_or_gt_of_ne hab with h | h
  · exact lt_of_le_of_lt (dataMin_le_mem xs a ha)
      (lt_of_lt_of_le h (mem_le_dataMax xs b hb))
  · exact lt_of_le_of_lt (dataMin_le_mem xs b hb)
      (lt_of_lt_of_le h (mem_le_dataMax xs a ha))

lemma trainingSequences_length (scaled : List ℚ) (window : Nat) :
    (trainingSequences scaled window).length = scaled.length - window := by
  simp [trainingSequences]

lemma trainingSequences_ne_nil (scaled : List ℚ) (window : Nat)
    (h : window < scaled.length) : trainingSequences scaled window ≠ [] := by
  apply List.ne_nil_of_length_pos
  rw [trainingSequences_length]
  omega

/-- The forecast rows `forecast_lstm_autotrain` returns once all guards
have passed (dates attached to decoded clamped autoregressive
predictions). -/
def autotrainForecastRows (data : Series) (days window : Nat)
    (predict : List ℚ → ℚ) : List (Int × ℚ) :=
  let closes := usableCloses data
  let scaler := MinMaxScaler.fit closes
  attachFutureDates (lastDate data) days
    ((predLoop predict window true days (closes.map scaler.transform)).map
      scaler.inverse_transform)

lemma autotrain_of_window_lt (data : Series) (days window : Nat)
    (predict : List ℚ → ℚ) (persist : Bool) (ticker : Option String)
    (pr : Except String Unit)
    (h : window < (usableCloses data).length) :
    forecast_lstm_autotrain data days window predict persist ticker pr =
      if persist && pyTruthyStr ticker then
        match pr with
        | .error e => .error (.persistFailed e)
        | .ok _ => .ok (autotrainForecastRows data days window predict)
      else .ok (autotrainForecastRows data days window predict) := by
  have hlen : ¬ (usableCloses data).length ≤ window := not_le.mpr h
  have hseq : trainingSequences
      ((usableCloses data).map (MinMaxScaler.fit (usableCloses data)).transform)
      window ≠ [] := by
    apply trainingSequences_ne_nil
    simpa using h
  simp only [forecast_lstm_autotrain, autotrainForecastRows, if_neg hlen,
    if_neg hseq]

/-- C10: under the series-length guard, the "Unable to create training
sequences" branch of `forecast_lstm_autotrain` is dead: the function never
returns that error, whatever its inputs. -/
theorem autotrain_noTrainingSequences_unreachable (data : Series)
    (days window : Nat) (predict : List ℚ → ℚ) (persist : Bool)
    (ticker : Option String) (pr : Except String Unit) :
    forecast_lstm_autotrain data days window predict persist ticker pr
      ≠ .error .noTrainingSequences := by
  rcases le_or_lt (usableCloses data).length window with h | h
  · simp [forecast_lstm_autotrain, if_pos h]
  · rw [autotrain_of_window_lt data days window predict persist ticker pr h]
    rcases pr with e | u <;> rcases hpt : persist && pyTruthyStr ticker <;> simp

/-- Closed instance of C10: a run with more usable points than the window
does not produce the "unable to create training sequences" error. -/
theorem autotrain_noTrainingSequences_unreachable_witness :
    forecast_lstm_autotrain [⟨0, some 1⟩, ⟨1, some 2⟩, ⟨2, some 3⟩] 1 2
      (fun _ => 0) false none (.ok ()) ≠ .error .noTrainingSequences :=
  autotrain_noTrainingSequences_unreachable _ 1 2 (fun _ => 0) false none (.ok ())

/-- C5: `forecast_lstm_autotrain` fails with the insufficient-data error
exactly when the series has `window` or fewer usable close values; the
preprocessing builds `len - window` training pairs, hence exactly one pair
for a series of `window + 1` usable points. -/
theorem autotrain_insufficient_data_iff (data : Series) (days window : Nat)
    (predict : List ℚ → ℚ) (persist : Bool) (ticker : Option String)
    (pr : Except String Unit) :
    ((usableCloses data).length ≤ window ↔
      forecast_lstm_autotrain data days window predict persist ticker pr
        = .error .insufficientData)
    ∧ (trainingSequences
         ((usableCloses data).map (MinMaxScaler.fit (usableCloses data)).transform)
         window).length = (usableCloses data).length - window
    ∧ ((usableCloses data).length = window + 1 →
       (trainingSequences
         ((usableCloses data).map (MinMaxScaler.fit (usableCloses data)).transform)
         window).length = 1) := by
  refine ⟨⟨fun h => by simp [forecast_lstm_autotrain, if_pos h], fun h => ?_⟩, ?_, fun h => ?_⟩
  · by_contra hlt
    rw [autotrain_of_window_lt data days window predict persist ticker pr
      (not_le.mp hlt)] at h
    rcases pr with e | u <;> rcases hpt : persist && pyTruthyStr ticker <;>
      simp [hpt] at h
  · rw [trainingSequences_length]
    simp
  · rw [trainingSequences_length]
    simp [h]

/-- Closed instance of C5: with `window = 2`, two usable points fail with
the insufficient-data error while three usable points yield exactly one
training pair. -/
theorem autotrain_insufficient_data_iff_witness :
    forecast_lstm_autotrain [⟨0, some 1⟩, ⟨1, some 2⟩] 1 2 (fun _ => 0)
      false none (.ok ()) = .error .insufficientData
    ∧ (trainingSequences
        ((usableCloses [⟨0, some 1⟩, ⟨1, some 2⟩, ⟨2, some 3⟩]).map
          (MinMaxScaler.fit
            (usableCloses [⟨0, some 1⟩, ⟨1, some 2⟩, ⟨2, some 3⟩])).transform)
        2).length = 1 :=
  ⟨(autotrain_insufficient_data_iff [⟨0, some 1⟩, ⟨1, some 2⟩] 1 2 (fun _ => 0)
      false none (.ok ())).1.mp (by decide),
   (autotrain_insufficient_data_iff [⟨0, some 1⟩, ⟨1, some 2⟩, ⟨2, some 3⟩] 1 2
      (fun _ => 0) false none (.ok ())).2.2 (by decide)⟩

lemma autotrain_demo_eval :
    forecast_lstm_autotrain [⟨0, some 1⟩, ⟨1, some 2⟩, ⟨2, some 3⟩, ⟨3, some 4⟩]
        2 2 (fun _ => (1 : ℚ)/2) true (some "AAPL") (.ok ())
      = .ok [(4, 5/2), (5, 5/2)] := by
  norm_num [forecast_lstm_autotrain, usableCloses, List.filterMap, MinMaxScaler.fit,
    dataMin, dataMax, MinMaxScaler.transform, MinMaxScaler.inverse_transform,
    trainingSequences, predLoop, pySliceLast, pyClip, pyTruthyStr, lastDate,
    attachFutureDates, List.range_succ, List.range', min_def, max_def,
    List.getLastD, List.foldl]
  exact fun h => absurd h (by simp)

/-- Counterexample to C1 as stated: with the persistence flag set, a
ticker, and enough data for training to complete, a failing persistence
step makes `forecast_lstm_autotrain` raise instead of returning the
computed forecast — the very same run with a succeeding persistence step
returns a forecast. -/
theorem autotrain_persist_failure_counterexample :
    forecast_lstm_autotrain [⟨0, some 1⟩, ⟨1, some 2⟩, ⟨2, some 3⟩, ⟨3, some 4⟩]
        2 2 (fun _ => (1 : ℚ)/2) true (some "AAPL") (.error "disk full")
      = .error (.persistFailed "disk full")
    ∧ forecast_lstm_autotrain [⟨0, some 1⟩, ⟨1, some 2⟩, ⟨2, some 3⟩, ⟨3, some 4⟩]
        2 2 (fun _ => (1 : ℚ)/2) true (some "AAPL") (.ok ())
      = .ok [(4, 5/2), (5, 5/2)] :=
  ⟨rfl, autotrain_demo_eval⟩

/-- C1 amended: a persistence failure propagates out of
`forecast_lstm_autotrain` as a `persistFailed` error (the computed
forecast is not returned); when persistence succeeds the returned rows are
exactly those of a run with persistence disabled — persistence never
changes the computed forecast values. -/
theorem autotrain_persist_failure_propagates (data : Series)
    (days window : Nat) (predict : List ℚ → ℚ) (t : String) (e : String)
    (pr : Except String Unit)
    (hw : window < (usableCloses data).length) (ht : t ≠ "") :
    forecast_lstm_autotrain data days window predict true (some t) (.error e)
      = .error (.persistFailed e)
    ∧ forecast_lstm_autotrain data days window predict true (some t) (.ok ())
      = forecast_lstm_autotrain data days window predict false (some t) pr := by
  have htt : pyTruthyStr (some t) = true := by
    simp [pyTruthyStr, ht]
  rw [autotrain_of_window_lt data days window predict true (some t) (.error e) hw,
    autotrain_of_window_lt data days window predict true (some t) (.ok ()) hw,
    autotrain_of_window_lt data days window predict false (some t) pr hw]
  simp [htt]

/-- Closed instance of the amended C1: a concrete run where the failing
persistence step surfaces as an error and a succeeding one returns the
run-without-persistence forecast. -/
theorem autotrain_persist_failure_propagates_witness :
    forecast_lstm_autotrain [⟨0, some 1⟩, ⟨1, some 2⟩, ⟨2, some 3⟩, ⟨3, some 4⟩]
        2 2 (fun _ => (1 : ℚ)/2) true (some "AAPL") (.error "disk full")
      = .error (.persistFailed "disk full")
    ∧ forecast_lstm_autotrain [⟨0, some 1⟩, ⟨1, some 2⟩, ⟨2, some 3⟩, ⟨3, some 4⟩]
        2 2 (fun _ => (1 : ℚ)/2) true (some "AAPL") (.ok ())
      = forecast_lstm_autotrain [⟨0, some 1⟩, ⟨1, some 2⟩, ⟨2, some 3⟩, ⟨3, some 4⟩]
        2 2 (fun _ => (1 : ℚ)/2) false (some "AAPL") (.error "ignored") :=
  autotrain_persist_failure_propagates
    [⟨0, some 1⟩, ⟨1, some 2⟩, ⟨2, some 3⟩, ⟨3, some 4⟩] 2 2
    (fun _ => (1 : ℚ)/2) "AAPL" "disk full" (.error "ignored")
    (by decide) (by decide)

/-- Counterexample to C2 as stated: the inference loop does not clamp the
predicted scaled value, so on a model predicting `2` the two loops diverge
at the first step (`2` vs the clamped `1`). -/
theorem predLoop_clamp_counterexample :
    predLoop (fun _ => (2 : ℚ)) 2 false 1 [0, 0] = [2]
    ∧ predLoop (fun _ => (2 : ℚ)) 2 true 1 [0, 0] = [1]
    ∧ predLoop (fun _ => (2 : ℚ)) 2 false 1 [0, 0]
        ≠ predLoop (fun _ => (2 : ℚ)) 2 true 1 [0, 0] := by
  refine ⟨rfl, ?_, ?_⟩ <;>
    norm_num [predLoop, pySliceLast, pyClip, min_def, max_def]

/-- C2 amended: the inference runner's autoregressive loop is the
autotrain loop without the clamp; whenever every raw prediction of the
model lies in `[0,1]`, the two loops compute the same sequence of
predicted scaled values from the same scaled history. -/
theorem predLoop_inference_eq_autotrain (predict : List ℚ → ℚ) (window : Nat)
    (h : ∀ l, 0 ≤ predict l ∧ predict l ≤ 1) :
    ∀ (days : Nat) (hist : List ℚ),
      predLoop predict window false days hist
        = predLoop predict window true days hist := by
  intro days
  induction days with
  | zero => intro hist; rfl
  | succ d ih =>
    intro hist
    have hp := h (pySliceLast hist window)
    have hclip : pyClip (predict (pySliceLast hist window)) 0 1
        = predict (pySliceLast hist window) := by
      unfold pyClip
      rw [max_eq_right hp.1, min_eq_right hp.2]
    simp only [predLoop, if_true, if_false, Bool.false_eq_true, hclip]
    rw [ih (hist ++ [predict (pySliceLast hist window)])]

/-- Closed instance of the amended C2: for an in-range model the two
loops agree on a concrete history. -/
theorem predLoop_inference_eq_autotrain_witness :
    predLoop (fun _ => (1 : ℚ)/2) 2 false 3 [0]
      = predLoop (fun _ => (1 : ℚ)/2) 2 true 3 [0] :=
  predLoop_inference_eq_autotrain (fun _ => (1 : ℚ)/2) 2
    (fun _ => ⟨by norm_num, by norm_num⟩) 3 [0]

lemma mem_predLoop_clamped (predict : List ℚ → ℚ) (window : Nat) :
    ∀ (days : Nat) (hist : List ℚ) (q : ℚ),
      q ∈ predLoop predict window true days hist → 0 ≤ q ∧ q ≤ 1 := by
  intro days
  induction days with
  | zero => intro hist q hq; cases hq
  | succ d ih =>
    intro hist q hq
    simp only [predLoop, if_true] at hq
    rcases List.mem_cons.mp hq with h | h
    · subst h
      unfold pyClip
      constructor
      · exact le_min (by norm_num) (le_max_left _ _)
      · exact min_le_left _ _
    · exact ih _ _ h

lemma fit_scale_of_lt (xs : List ℚ) (h : dataMin xs < dataMax xs) :
    (MinMaxScaler.fit xs).scale_ = 1 / (dataMax xs - dataMin xs)
    ∧ (MinMaxScaler.fit xs).min_
        = 0 - dataMin xs * (1 / (dataMax xs - dataMin xs)) := by
  have hne : dataMax xs - dataMin xs ≠ 0 := sub_ne_zero.mpr (ne_of_gt h)
  constructor <;> simp [MinMaxScaler.fit, if_neg hne]

lemma inverse_transform_mem_range (xs : List ℚ) (y : ℚ)
    (h : dataMin xs < dataMax xs) (h0 : 0 ≤ y) (h1 : y ≤ 1) :
    dataMin xs ≤ (MinMaxScaler.fit xs).inverse_transform y
    ∧ (MinMaxScaler.fit xs).inverse_transform y ≤ dataMax xs := by
  obtain ⟨hs, hm⟩ := fit_scale_of_lt xs h
  have hr : (0 : ℚ) < dataMax xs - dataMin xs := sub_pos.mpr h
  have hrne : dataMax xs - dataMin xs ≠ 0 := ne_of_gt hr
  unfold MinMaxScaler.inverse_transform
  rw [hs, hm]
  have key : (y - (0 - dataMin xs * (1 / (dataMax xs - dataMin xs))))
      / (1 / (dataMax xs - dataMin xs))
      = y * (dataMax xs - dataMin xs) + dataMin xs := by
    field_simp
  rw [key]
  constructor
  · nlinarith
  · nlinarith

/-- C4 amended: when the series has at least two distinct usable close
values, every forecast value returned by `forecast_lstm_autotrain` lies in
the closed interval between the minimum and maximum of the usable closes
(the clamp keeps scaled predictions in `[0,1]` and the inverse min-max
transform maps `[0,1]` onto the observed range). -/
theorem autotrain_forecast_within_range (data : Series) (days window : Nat)
    (predict : List ℚ → ℚ) (persist : Bool) (ticker : Option String)
    (pr : Except String Unit) (fc : List (Int × ℚ)) (a b : ℚ)
    (ha : a ∈ usableCloses data) (hb : b ∈ usableCloses data) (hab : a ≠ b)
    (hok : forecast_lstm_autotrain data days window predict persist ticker pr
      = .ok fc) :
    ∀ p ∈ fc, dataMin (usableCloses data) ≤ p.2
      ∧ p.2 ≤ dataMax (usableCloses data) := by
  have hmm := dataMin_lt_dataMax _ a b ha hb hab
  rcases le_or_lt (usableCloses data).length window with hle | hlt
  · exfalso
    have : forecast_lstm_autotrain data days window predict persist ticker pr
        = .error .insufficientData := by
      simp [forecast_lstm_autotrain, if_pos hle]
    rw [this] at hok
    exact Except.noConfusion hok
  · rw [autotrain_of_window_lt data days window predict persist ticker pr hlt]
      at hok
    have hfc : fc = autotrainForecastRows data days window predict := by
      rcases pr with e | u <;> rcases hpt : persist && pyTruthyStr ticker <;>
        simp [hpt] at hok <;> exact hok.symm
    subst hfc
    intro p hp
    simp only [autotrainForecastRows, attachFutureDates] at hp
    have hp2 := (List.of_mem_zip hp).2
    rcases List.mem_map.mp hp2 with ⟨q, hq, hqe⟩
    have hqb := mem_predLoop_clamped predict window days _ q hq
    rw [← hqe]
    exact inverse_transform_mem_range _ q hmm hqb.1 hqb.2

/-- Closed instance of the amended C4: a forecast value of a concrete run
stays within the historical price range. -/
theorem autotrain_forecast_within_range_witness :
    dataMin (usableCloses
        [⟨0, some 1⟩, ⟨1, some 2⟩, ⟨2, some 3⟩, ⟨3, some 4⟩]) ≤ (5 : ℚ)/2
    ∧ (5 : ℚ)/2 ≤ dataMax (usableCloses
        [⟨0, some 1⟩, ⟨1, some 2⟩, ⟨2, some 3⟩, ⟨3, some 4⟩]) :=
  autotrain_forecast_within_range
    [⟨0, some 1⟩, ⟨1, some 2⟩, ⟨2, some 3⟩, ⟨3, some 4⟩] 2 2
    (fun _ => (1 : ℚ)/2) true (some "AAPL") (.ok ()) _ 1 2
    (by norm_num [usableCloses, List.filterMap])
    (by norm_num [usableCloses, List.filterMap])
    (by norm_num)
    autotrain_demo_eval ((4 : Int), (5 : ℚ)/2) (List.mem_cons_self _ _)

/-- Counterexample to C4 as stated: on a constant series (all closes
equal to 5) the fitted sklearn transform has a zero data range, which the
library replaces by scale 1; the inverse transform then maps the clamped
prediction 1 to the price 6, strictly above the historical maximum 5. -/
theorem autotrain_range_counterexample :
    forecast_lstm_autotrain [⟨0, some 5⟩, ⟨1, some 5⟩, ⟨2, some 5⟩] 1 2
        (fun _ => 2) false none (.ok ()) = .ok [(3, 6)]
    ∧ dataMax (usableCloses [⟨0, some 5⟩, ⟨1, some 5⟩, ⟨2, some 5⟩]) = 5
    ∧ ¬ ((6 : ℚ) ≤ 5) := by
  refine ⟨?_, by norm_num [usableCloses, List.filterMap, dataMax, List.foldl,
    max_def], by norm_num⟩
  norm_num [forecast_lstm_autotrain, usableCloses, List.filterMap,
    MinMaxScaler.fit, dataMin, dataMax, MinMaxScaler.transform,
    MinMaxScaler.inverse_transform, trainingSequences, predLoop, pySliceLast,
    pyClip, pyTruthyStr, lastDate, attachFutureDates, List.range_succ,
    List.range', min_def, max_def, List.getLastD, List.foldl]

/-- C7: for a min-max transform fitted on a series with at least two
distinct values, inverse-scaling a scaled value returns the original value
exactly (in the exact-arithmetic embedding), for any value within the
fitted transform's observed range. -/
theorem minmax_round_trip (xs : List ℚ) (a b x : ℚ) (ha : a ∈ xs)
    (hb : b ∈ xs) (hab : a ≠ b) (hx1 : dataMin xs ≤ x)
    (hx2 : x ≤ dataMax xs) :
    (MinMaxScaler.fit xs).inverse_transform ((MinMaxScaler.fit xs).transform x)
      = x := by
  have hmm := dataMin_lt_dataMax xs a b ha hb hab
  obtain ⟨hs, _⟩ := fit_scale_of_lt xs hmm
  have hr : (0 : ℚ) < dataMax xs - dataMin xs := sub_pos.mpr hmm
  have hsne : (MinMaxScaler.fit xs).scale_ ≠ 0 := by
    rw [hs]
    positivity
  unfold MinMaxScaler.transform MinMaxScaler.inverse_transform
  field_simp

/-- Closed instance of C7: round trip through the transform fitted on
`[1, 3]` at the in-range value `2`. -/
theorem minmax_round_trip_witness :
    (MinMaxScaler.fit [1, 3]).inverse_transform
      ((MinMaxScaler.fit [1, 3]).transform 2) = 2 :=
  minmax_round_trip [1, 3] 1 3 2 (by norm_num) (by norm_num) (by norm_num)
    (by norm_num [dataMin, List.foldl, min_def])
    (by norm_num [dataMax, List.foldl, max_def])

lemma usableRows_of_all_some (s : Series) (h : ∀ r ∈ s, r.close.isSome) :
    usableRows s = s := by
  unfold usableRows
  exact List.filter_eq_self.mpr h

lemma usableCloses_length_of_all_some (s : Series)
    (h : ∀ r ∈ s, r.close.isSome) : (usableCloses s).length = s.length := by
  induction s with
  | nil => rfl
  | cons r t ih =>
    have hr := h r (List.mem_cons_self r t)
    rcases hc : r.close with _ | c
    · rw [hc] at hr; cases hr
    · simp only [usableCloses, List.filterMap_cons, hc]
      have := ih (fun x hx => h x (List.mem_cons_of_mem r hx))
      simp only [usableCloses] at this
      simp [this]

/-- Counterexample to C6 as stated: the one-row series whose close is
missing is non-empty, yet `forecast_linear` neither succeeds nor fails
with the empty-series error — it dies in `np.polyfit` on empty vectors. -/
theorem forecast_linear_counterexample :
    forecast_linear [⟨0, none⟩] 5 = .error .polyfitEmpty
    ∧ ([(⟨0, none⟩ : Row)] : Series) ≠ []
    ∧ forecast_linear [⟨0, none⟩] 5 ≠ .error .emptySeries := by
  refine ⟨rfl, by simp, ?_⟩
  intro h
  rw [show forecast_linear [⟨0, none⟩] 5 = .error .polyfitEmpty from rfl] at h
  simp at h

/-- C6 amended: for every series all of whose rows carry a usable
(non-missing) close and every horizon `days ≥ 1`, `forecast_linear`
succeeds with exactly `days` values dated on strictly consecutive days
starting one day after the last historical date, and on a single-point
series every value equals that point's close; the empty series fails with
the empty-series error.  (A non-empty series whose closes are all missing
instead dies inside the least-squares fit.) -/
theorem forecast_linear_spec (s : Series) (days : Nat) (hdays : 1 ≤ days) :
    forecast_linear ([] : Series) days = .error .emptySeries
    ∧ (s ≠ [] → (∀ r ∈ s, r.close.isSome) →
        ∃ fc, forecast_linear s days = .ok fc
          ∧ fc.length = days
          ∧ (∀ i, ∀ hi : i < fc.length,
              (fc.get ⟨i, hi⟩).1 = lastDate s + 1 + (i : Int))
          ∧ (∀ d c, s = [⟨d, some c⟩] → ∀ p ∈ fc, p.2 = c)) := by
  refine ⟨rfl, fun hne hall => ?_⟩
  have hur : usableRows s = s := usableRows_of_all_some s hall
  have hlen : (usableCloses s).length = s.length :=
    usableCloses_length_of_all_some s hall
  have hpos : 0 < s.length := List.length_pos.mpr hne
  by_cases h1 : (usableCloses s).length = 1
  · have heq : forecast_linear s days
        = .ok ((List.range days).map
            (fun (k : Nat) => (lastDate (usableRows s) + 1 + (k : Int),
              0 * (((usableCloses s).length : ℚ) + (k : ℚ))
                + (usableCloses s).getD 0 0))) := by
      simp only [forecast_linear]
      rw [if_neg hne, if_pos h1]
    refine ⟨_, heq, ?_, ?_, ?_⟩
    · simp
    · intro i hi
      have hi2 : i < days := by simpa using hi
      simp [List.get_eq_getElem, hur, hi2]
    · intro d c hs p hp
      rcases List.mem_map.mp hp with ⟨k, _, hk⟩
      rw [← hk]
      subst hs
      simp [usableCloses, List.getD]
  · have h0 : ¬ (usableCloses s).length = 0 := by
      rw [hlen]; omega
    have heq : forecast_linear s days
        = .ok ((List.range days).map
            (fun (k : Nat) => (lastDate (usableRows s) + 1 + (k : Int),
              (polyfit1 (usableCloses s)).1
                  * (((usableCloses s).length : ℚ) + (k : ℚ))
                + (polyfit1 (usableCloses s)).2))) := by
      simp only [forecast_linear]
      rw [if_neg hne, if_neg h1, if_neg h0]
    refine ⟨_, heq, ?_, ?_, ?_⟩
    · simp
    · intro i hi
      have hi2 : i < days := by simpa using hi
      simp [List.get_eq_getElem, hur, hi2]
    · intro d c hs p hp
      exfalso
      apply h1
      rw [hlen, hs]
      rfl

/-- Closed instance of the amended C6: a two-point all-usable series
yields a three-day forecast with consecutive dates, and the empty series
fails with the empty-series error. -/
theorem forecast_linear_spec_witness :
    forecast_linear ([] : Series) 3 = .error .emptySeries
    ∧ ∃ fc, forecast_linear [⟨0, some 1⟩, ⟨1, some 3⟩] 3 = .ok fc
        ∧ fc.length = 3
        ∧ (∀ i, ∀ hi : i < fc.length,
            (fc.get ⟨i, hi⟩).1 = lastDate [⟨0, some 1⟩, ⟨1, some 3⟩] + 1 + (i : Int))
        ∧ (∀ d c, ([⟨0, some 1⟩, ⟨1, some 3⟩] : Series) = [⟨d, some c⟩] →
            ∀ p ∈ fc, p.2 = c) :=
  ⟨(forecast_linear_spec [⟨0, some 1⟩, ⟨1, some 3⟩] 3 (by norm_num)).1,
   (forecast_linear_spec [⟨0, some 1⟩, ⟨1, some 3⟩] 3 (by norm_num)).2
     (by simp) (by decide)⟩

/-- C9: with the prefer-sequence-model flag off, the orchestrator attempts
only the linear tier (it never calls `forecast_lstm_autotrain` or
`forecast_lstm_inference`), and any returned outcome has
`source = "linear"` and an empty note — for every ticker, catalog state,
training/inference behaviour, series and horizon. -/
theorem orchestrator_linear_only_when_disabled (ticker : String)
    (listing0 listing1 : List String)
    (train : Except String (List (Int × ℚ)))
    (infer : Nat → Except String (List (Int × ℚ)))
    (data : Series) (days : Nat) :
    get_forecast_tiers false ticker listing0 listing1 train infer data days
      = ([Tier.linear],
         (forecast_linear data days).map (fun f => ⟨"linear", none, f⟩)) := by
  cases h : forecast_linear data days <;>
    simp [get_forecast_tiers, h, Except.map]

/-- Counterexample to C3 as stated: a single orchestration call in which
training fails, the refreshed catalog resolves the ticker, and cached
inference fails attempts the cached-inference tier twice. -/
theorem orchestrator_retry_counterexample :
    (get_forecast_tiers true "AAPL" [] ["lstm_AAPL.keras", "scaler_AAPL.save"]
        (.error "train boom") (fun _ => .error "io error")
        [⟨0, some 1⟩] 2).1
      = [Tier.train, Tier.cached, Tier.cached, Tier.linear]
    ∧ ¬ ([Tier.train, Tier.cached, Tier.cached, Tier.linear].count Tier.cached
          ≤ 1) := by
  constructor
  · rfl
  · decide

/-- C3 amended: per orchestration call the training tier and the linear
tier are attempted at most once, while the cached-inference tier is
attempted at most twice — and the cached tier is attempted a second time
exactly when the sequence model was requested, training failed, the
ticker resolves in the refreshed catalog, and the first cached-inference
attempt itself failed. -/
theorem orchestrator_tier_attempt_counts (use_lstm : Bool) (ticker : String)
    (listing0 listing1 : List String)
    (train : Except String (List (Int × ℚ)))
    (infer : Nat → Except String (List (Int × ℚ)))
    (data : Series) (days : Nat) :
    (get_forecast_tiers use_lstm ticker listing0 listing1 train infer
        data days).1.count Tier.train ≤ 1
    ∧ (get_forecast_tiers use_lstm ticker listing0 listing1 train infer
        data days).1.count Tier.linear ≤ 1
    ∧ (get_forecast_tiers use_lstm ticker listing0 listing1 train infer
        data days).1.count Tier.cached ≤ 2
    ∧ ((get_forecast_tiers use_lstm ticker listing0 listing1 train infer
        data days).1.count Tier.cached = 2 ↔
        use_lstm = true
        ∧ (∃ e, train = .error e)
        ∧ catalogHasTicker listing1 ticker = true
        ∧ (∃ e, infer 0 = .error e)) := by
  cases use_lstm
  · cases hl : forecast_linear data days <;>
      simp [get_forecast_tiers, hl]
  · cases ht : train with
    | ok df => simp [get_forecast_tiers, ht]
    | error e =>
      by_cases hc : catalogHasTicker listing1 ticker
      · cases hi0 : infer 0 with
        | ok df =>
          simp [get_forecast_tiers, ht, hc, hi0]
        | error e0 =>
          cases hi1 : infer 1 with
          | ok df =>
            simp [get_forecast_tiers, ht, hc, hi0, hi1]
          | error e1 =>
            cases hl : forecast_linear data days <;>
              simp [get_forecast_tiers, ht, hc, hi0, hi1, hl]
      · cases hl : forecast_linear data days <;>
          simp [get_forecast_tiers, ht, hc, hl]

/-- Closed instance of the amended C3: the attempt-count bounds and the
second-attempt characterization at a concrete orchestration call whose
cached tier is attempted twice. -/
theorem orchestrator_tier_attempt_counts_witness :
    (get_forecast_tiers true "AAPL" [] ["lstm_AAPL.keras", "scaler_AAPL.save"]
        (.error "train boom") (fun _ => .error "io error")
        [⟨0, some 1⟩] 2).1.count Tier.train ≤ 1
    ∧ (get_forecast_tiers true "AAPL" [] ["lstm_AAPL.keras", "scaler_AAPL.save"]
        (.error "train boom") (fun _ => .error "io error")
        [⟨0, some 1⟩] 2).1.count Tier.linear ≤ 1
    ∧ (get_forecast_tiers true "AAPL" [] ["lstm_AAPL.keras", "scaler_AAPL.save"]
        (.error "train boom") (fun _ => .error "io error")
        [⟨0, some 1⟩] 2).1.count Tier.cached ≤ 2
    ∧ ((get_forecast_tiers true "AAPL" [] ["lstm_AAPL.keras", "scaler_AAPL.save"]
        (.error "train boom") (fun _ => .error "io error")
        [⟨0, some 1⟩] 2).1.count Tier.cached = 2 ↔
        true = true
        ∧ (∃ e, (Except.error "train boom" :
            Except String (List (Int × ℚ))) = .error e)
        ∧ catalogHasTicker ["lstm_AAPL.keras", "scaler_AAPL.save"] "AAPL" = true
        ∧ (∃ e, (fun (_ : Nat) =>
            (Except.error "io error" : Except String (List (Int × ℚ)))) 0
              = .error e)) :=
  orchestrator_tier_attempt_counts true "AAPL" []
    ["lstm_AAPL.keras", "scaler_AAPL.save"] (.error "train boom")
    (fun _ => .error "io error") [⟨0, some 1⟩] 2

lemma mem_dictInsert (l : List (String × String × String)) (k : String)
    (v : String × String) (e : String × String × String)
    (he : e ∈ dictInsert l k v) : e = (k, v) ∨ (e ∈ l ∧ ¬ e.1 = k) := by
  unfold dictInsert at he
  by_cases h : l.any (fun x => x.1 == k)
  · rw [if_pos h] at he
    rcases List.mem_map.mp he with ⟨e0, he0, heq⟩
    by_cases hk : e0.1 == k
    · rw [if_pos hk] at heq
      exact Or.inl heq.symm
    · rw [if_neg hk] at heq
      subst heq
      exact Or.inr ⟨he0, by simpa using hk⟩
  · rw [if_neg h] at he
    rcases List.mem_append.mp he with h1 | h1
    · refine Or.inr ⟨h1, fun hk => ?_⟩
      exact h (List.any_eq_true.mpr ⟨e, h1, by simpa using hk⟩)
    · rcases List.mem_singleton.mp h1 with rfl
      exact Or.inl rfl

lemma mem_catalogStep (listing : List String)
    (acc : List (String × String × String)) (mp : String)
    (e : String × String × String) (he : e ∈ catalogStep listing acc mp) :
    e ∈ acc ∨ (e.2.1 = mp
      ∧ normalise_ticker_from_stem (pyStem e.2.1) = some e.1
      ∧ find_scaler_path listing e.1 = some e.2.2) := by
  rcases hn : normalise_ticker_from_stem (pyStem mp) with _ | t
  · simp only [catalogStep, hn] at he
    exact Or.inl he
  · rcases hf : find_scaler_path listing t with _ | sp
    · simp only [catalogStep, hn, hf] at he
      exact Or.inl he
    · simp only [catalogStep, hn, hf] at he
      rcases mem_dictInsert acc t (mp, sp) e he with h | h
      · subst h
        exact Or.inr ⟨rfl, hn, hf⟩
      · exact Or.inl h.1

lemma mem_foldl_catalogStep (listing : List String) (files : List String) :
    ∀ (acc : List (String × String × String)) (e : String × String × String),
      e ∈ files.foldl (catalogStep listing) acc →
      e ∈ acc ∨ (e.2.1 ∈ files
        ∧ normalise_ticker_from_stem (pyStem e.2.1) = some e.1
        ∧ find_scaler_path listing e.1 = some e.2.2) := by
  induction files with
  | nil => intro acc e he; exact Or.inl he
  | cons m fs ih =>
    intro acc e he
    rw [List.foldl_cons] at he
    rcases ih _ e he with h | h
    · rcases mem_catalogStep listing acc m e h with h2 | h2
      · exact Or.inl h2
      · exact Or.inr ⟨h2.1 ▸ List.mem_cons_self m fs, h2.2.1, h2.2.2⟩
    · exact Or.inr ⟨List.mem_cons_of_mem m h.1, h.2.1, h.2.2⟩

lemma mem_list_available_models (listing : List String)
    (e : String × String × String) (he : e ∈ list_available_models listing) :
    e.2.1 ∈ modelFiles listing
    ∧ normalise_ticker_from_stem (pyStem e.2.1) = some e.1
    ∧ find_scaler_path listing e.1 = some e.2.2 := by
  unfold list_available_models at he
  rcases mem_foldl_catalogStep listing (modelFiles listing) [] e he with h | h
  · cases h
  · exact h

lemma keys_dictInsert (l : List (String × String × String)) (k : String)
    (v : String × String) :
    (dictInsert l k v).map (fun e => e.1)
      = if l.any (fun e => e.1 == k) then l.map (fun e => e.1)
        else l.map (fun e => e.1) ++ [k] := by
  unfold dictInsert
  split
  · rw [List.map_map]
    apply List.map_congr_left
    intro e _
    by_cases h : e.1 == k
    · simp only [Function.comp_apply, if_pos h]
      exact (eq_of_beq h).symm
    · simp only [beq_iff_eq] at h
      simp [Function.comp_apply, h]
  · simp

lemma mem_keys_dictInsert (l : List (String × String × String)) (k : String)
    (v : String × String) (t : String) :
    t ∈ (dictInsert l k v).map (fun e => e.1)
      ↔ t ∈ l.map (fun e => e.1) ∨ t = k := by
  rw [keys_dictInsert]
  split
  · rename_i h
    rcases List.any_eq_true.mp h with ⟨e, he, hk⟩
    constructor
    · exact fun h2 => Or.inl h2
    · rintro (h2 | rfl)
      · exact h2
      · exact List.mem_map.mpr ⟨e, he, eq_of_beq hk⟩
  · simp

lemma mem_keys_catalogStep (listing : List String)
    (acc : List (String × String × String)) (mp : String) (t : String)
    (h : t ∈ acc.map (fun e => e.1)) :
    t ∈ (catalogStep listing acc mp).map (fun e => e.1) := by
  rcases hn : normalise_ticker_from_stem (pyStem mp) with _ | t2
  · simpa only [catalogStep, hn] using h
  · rcases hf : find_scaler_path listing t2 with _ | sp
    · simpa only [catalogStep, hn, hf] using h
    · simp only [catalogStep, hn, hf]
      exact (mem_keys_dictInsert acc t2 (mp, sp) t).mpr (Or.inl h)

lemma mem_keys_foldl_mono (listing : List String) (files : List String) :
    ∀ (acc : List (String × String × String)) (t : String),
      t ∈ acc.map (fun e => e.1) →
      t ∈ (files.foldl (catalogStep listing) acc).map (fun e => e.1) := by
  induction files with
  | nil => intro acc t h; exact h
  | cons m fs ih =>
    intro acc t h
    rw [List.foldl_cons]
    exact ih _ t (mem_keys_catalogStep listing acc m t h)

lemma key_mem_foldl_catalog (listing : List String) (files : List String) :
    ∀ (acc : List (String × String × String)) (T m sp : String),
      m ∈ files → normalise_ticker_from_stem (pyStem m) = some T →
      find_scaler_path listing T = some sp →
      T ∈ (files.foldl (catalogStep listing) acc).map (fun e => e.1) := by
  induction files with
  | nil => intro _ _ _ _ hm; cases hm
  | cons f fs ih =>
    intro acc T m sp hm hn hf
    rw [List.foldl_cons]
    rcases List.mem_cons.mp hm with rfl | hm2
    · apply mem_keys_foldl_mono
      simp only [catalogStep, hn, hf]
      exact (mem_keys_dictInsert acc T (m, sp) T).mpr (Or.inr rfl)
    · exact ih _ T m sp hm2 hn hf

lemma keysNodup_dictInsert (l : List (String × String × String)) (k : String)
    (v : String × String) (h : (l.map (fun e => e.1)).Nodup) :
    ((dictInsert l k v).map (fun e => e.1)).Nodup := by
  rw [keys_dictInsert]
  split
  · exact h
  · rename_i hany
    rw [List.nodup_append]
    refine ⟨h, List.nodup_singleton k, fun t ht hk => ?_⟩
    rcases List.mem_singleton.mp hk with rfl
    rcases List.mem_map.mp ht with ⟨e, he, hek⟩
    exact hany (List.any_eq_true.mpr ⟨e, he, by simp [hek]⟩)

lemma keysNodup_catalogStep (listing : List String)
    (acc : List (String × String × String)) (mp : String)
    (h : (acc.map (fun e => e.1)).Nodup) :
    ((catalogStep listing acc mp).map (fun e => e.1)).Nodup := by
  rcases hn : normalise_ticker_from_stem (pyStem mp) with _ | t
  · simpa only [catalogStep, hn] using h
  · rcases hf : find_scaler_path listing t with _ | sp
    · simpa only [catalogStep, hn, hf] using h
    · simp only [catalogStep, hn, hf]
      exact keysNodup_dictInsert acc t (mp, sp) h

lemma keysNodup_foldl_catalog (listing : List String) (files : List String) :
    ∀ (acc : List (String × String × String)),
      (acc.map (fun e => e.1)).Nodup →
      ((files.foldl (catalogStep listing) acc).map (fun e => e.1)).Nodup := by
  induction files with
  | nil => intro acc h; exact h
  | cons m fs ih =>
    intro acc h
    rw [List.foldl_cons]
    exact ih _ (keysNodup_catalogStep listing acc m h)

lemma filter_key_length_one (T : String) :
    ∀ (l : List (String × String × String)),
      (l.map (fun e => e.1)).Nodup → T ∈ l.map (fun e => e.1) →
      (l.filter (fun e => e.1 == T)).length = 1 := by
  intro l
  induction l with
  | nil => intro _ hk; cases hk
  | cons e t ih =>
    intro hnd hk
    rw [List.map_cons, List.nodup_cons] at hnd
    rcases List.mem_cons.mp hk with rfl | hk2
    · rw [List.filter_cons, if_pos (by simp)]
      have ht : t.filter (fun x => x.1 == e.1) = [] := by
        apply List.filter_eq_nil_iff.mpr
        intro x hx hbeq
        exact hnd.1 (List.mem_map.mpr ⟨x, hx, eq_of_beq hbeq⟩)
      rw [ht]
      rfl
    · have hne : ¬ (e.1 == T) = true := by
        intro hbeq
        exact hnd.1 (eq_of_beq hbeq ▸ hk2)
      rw [List.filter_cons, if_neg hne]
      exact ih hnd.2 hk2

/-- C8: the catalog scan produces no entry for a ticker whose scaler
lookup finds no file under any recognized naming variant; and when some
model file resolves to the ticker and the scaler lookup succeeds, the
catalog holds exactly one entry for that ticker, mapping it to one of its
model files and to the first matching scaler in the fixed candidate
order (the value `find_scaler_path` returns). -/
theorem catalog_entry_pairing (listing : List String) (T m sp : String) :
    (find_scaler_path listing T = none →
      ∀ e ∈ list_available_models listing, ¬ e.1 = T)
    ∧ (m ∈ modelFiles listing →
       normalise_ticker_from_stem (pyStem m) = some T →
       find_scaler_path listing T = some sp →
       ((list_available_models listing).filter (fun e => e.1 == T)).length = 1
       ∧ ∀ e ∈ list_available_models listing, e.1 = T →
           e.2.2 = sp ∧ e.2.1 ∈ modelFiles listing
           ∧ normalise_ticker_from_stem (pyStem e.2.1) = some T) := by
  constructor
  · intro hnone e he heq
    have h := mem_list_available_models listing e he
    rw [heq] at h
    rw [h.2.2] at hnone
    exact Option.noConfusion hnone
  · intro hm hn hf
    constructor
    · apply filter_key_length_one T (list_available_models listing)
      · exact keysNodup_foldl_catalog listing (modelFiles listing) []
          List.nodup_nil
      · exact key_mem_foldl_catalog listing (modelFiles listing) [] T m sp
          hm hn hf
    · intro e he heq
      have h := mem_list_available_models listing e he
      rw [heq] at h
      rw [hf] at h
      exact ⟨(Option.some.inj h.2.2).symm, h.1, heq ▸ h.2.1⟩

/-- Closed instance of C8: in a concrete storage root, the ticker with a
model file but no scaler gets no entry, while the ticker with both gets
exactly one entry. -/
theorem catalog_entry_pairing_witness :
    (∀ e ∈ list_available_models
        ["lstm_AAPL.keras", "scaler_AAPL.save", "lstm_MSFT.keras"],
      ¬ e.1 = "MSFT")
    ∧ ((list_available_models
        ["lstm_AAPL.keras", "scaler_AAPL.save", "lstm_MSFT.keras"]).filter
          (fun e => e.1 == "AAPL")).length = 1 :=
  ⟨(catalog_entry_pairing
      ["lstm_AAPL.keras", "scaler_AAPL.save", "lstm_MSFT.keras"]
      "MSFT" "x" "y").1 (by decide),
   ((catalog_entry_pairing
      ["lstm_AAPL.keras", "scaler_AAPL.save", "lstm_MSFT.keras"]
      "AAPL" "lstm_AAPL.keras" "scaler_AAPL.save").2 (by decide) (by decide)
      (by decide)).1⟩
